import Mathlib

set_option maxRecDepth 100000

/-
Verification of the LAMMPS dump-file processor (src/dumps2extxyz.py),
a shallow embedding of `process_dump_file` and its helpers.

Modelling conventions:
- An input stream is a `List String` of its lines, without trailing newlines.
  Python's `f.readline()` returning the empty string at end of file is
  modelled by reading past the end of the list (`lineAt` yields the empty
  string there); a genuinely empty line inside the file is an empty string
  element of the list (truthy in Python, since it carries its newline).
- Python `float` values are modelled by `ℚ`.  All concrete inputs used in
  the theorems below are short decimal literals whose `float` arithmetic
  (subtraction of bounds, sums of the per-atom energies chosen here) is
  exact, so the rational pipeline and the binary floating-point pipeline
  agree on them, including their printed forms.
- `decRepr` models Python's `str(float)` on such values (shortest decimal
  digits, at least one fractional digit); `formatFixed8` models the
  `:.8f` fixed-point format; neither models exponent notation, which the
  concrete values avoid.
- Python exceptions are modelled by `Except PyErr`; `IndexError` and
  `ValueError` are the two kinds `process_dump_file` can raise.
-/

/-- Python `str.split()` on a list of characters: split on whitespace runs,
dropping empty pieces.  `cur` accumulates the current token reversed. -/
def splitWsAux : List Char → List Char → List String
  | [], cur => if cur.isEmpty then [] else [⟨cur.reverse⟩]
  | c :: cs, cur =>
    if c.isWhitespace then
      if cur.isEmpty then splitWsAux cs [] else ⟨cur.reverse⟩ :: splitWsAux cs []
    else splitWsAux cs (c :: cur)

/-- Python `line.split()` (whitespace splitting, empty pieces dropped). -/
def pySplit (s : String) : List String := splitWsAux s.data []

/-- Python `pat in line` substring test, on character lists. -/
def containsSeq (pat : List Char) : List Char → Bool
  | [] => pat.isEmpty
  | c :: cs => pat.isPrefixOf (c :: cs) || containsSeq pat cs

/-- Python `s.strip()`. -/
def pyStrip (s : String) : String :=
  ⟨((s.data.dropWhile Char.isWhitespace).reverse.dropWhile Char.isWhitespace).reverse⟩

/-- Value of a list of decimal digit characters (most significant first). -/
def digitsVal (l : List Char) : Nat :=
  l.foldl (fun acc c => 10 * acc + (c.toNat - 48)) 0

/-- Parse a nonempty all-digit character list; `none` otherwise.
Together with the sign handling below this models Python `int(...)`
on stripped tokens (underscored or whitespace-padded forms are not
modelled; no input here uses them). -/
def parseDigits? (l : List Char) : Option Nat :=
  if l.isEmpty then none
  else if l.all Char.isDigit then some (digitsVal l) else none

/-- Python `int(s)` for a stripped token. -/
def parseInt? (s : String) : Option Int :=
  match s.data with
  | '-' :: rest => (parseDigits? rest).map (fun n => -(n : Int))
  | '+' :: rest => (parseDigits? rest).map (fun n => (n : Int))
  | l => (parseDigits? l).map (fun n => (n : Int))

/-- Split a character list at every '.' character. -/
def splitOnDot : List Char → List (List Char)
  | [] => [[]]
  | c :: cs =>
    if c = '.' then [] :: splitOnDot cs
    else
      match splitOnDot cs with
      | [] => [[c]]
      | p :: ps => (c :: p) :: ps

/-- Python `float(s)` on an unsigned plain decimal literal (digits with an
optional single '.'); exponent forms are not modelled (unused here). -/
def parseUQ? (l : List Char) : Option ℚ :=
  match splitOnDot l with
  | [a] => (parseDigits? a).map (fun n => (n : ℚ))
  | [a, b] =>
    if a.isEmpty && b.isEmpty then none
    else if a.all Char.isDigit && b.all Char.isDigit then
      some ((digitsVal a * 10 ^ b.length + digitsVal b : ℕ) / ((10 : ℚ) ^ b.length))
    else none
  | _ => none

/-- Python `float(s)` on a stripped plain decimal token. -/
def parseQ? (s : String) : Option ℚ :=
  match s.data with
  | '-' :: rest => (parseUQ? rest).map (fun q => -q)
  | '+' :: rest => parseUQ? rest
  | l => parseUQ? l

/-- The digit characters of `n`, exactly `d` of them, most significant
first (leading zeros kept): the fractional part of a fixed-point print. -/
def padDigits (d : Nat) (n : Nat) : List Char :=
  ((List.range d).reverse).map (fun i => Nat.digitChar (n / 10 ^ i % 10))

/-- Round half to even, as IEEE-754 formatting does. -/
def rhe (q : ℚ) : Int :=
  let f := ⌊q⌋
  let r := q - f
  if r < 1 / 2 then f
  else if 1 / 2 < r then f + 1
  else if f % 2 = 0 then f else f + 1

/-- Python `f"{x:.8f}"`: fixed-point with exactly eight digits after the
decimal point. -/
def formatFixed8 (q : ℚ) : String :=
  let r : Int := rhe (q * 100000000)
  let a : Nat := r.natAbs
  let sign : List Char := if r < 0 then ['-'] else []
  ⟨sign ++ (Nat.repr (a / 100000000)).data ++ '.' :: padDigits 8 (a % 100000000)⟩

/-- Smallest number of decimal digits after the point that writes `q`
exactly (capped at 400; every value arising here needs only a few). -/
def minDecDigits (q : ℚ) : Nat :=
  (((List.range 400).find? (fun d => (q * (10 : ℚ) ^ d).den == 1))).getD 400

/-- Python `f"{x}"` / `str(float)` on values with a short exact decimal
form: minimal digits, but always at least one digit after the point. -/
def decRepr (q : ℚ) : String :=
  let d := max (minDecDigits q) 1
  let v : Int := (q * (10 : ℚ) ^ d).num
  let a : Nat := v.natAbs
  let sign : List Char := if q < 0 then ['-'] else []
  ⟨sign ++ (Nat.repr (a / 10 ^ d)).data ++ '.' :: padDigits d (a % 10 ^ d)⟩

/-- Count the digit characters strictly before the first '.', scanning
from the front; `none` if a non-digit comes first or there is no '.'.
Applied to the reversed characters of a rendered number it counts the
digits after the decimal point. -/
def decCount : List Char → Option Nat
  | [] => none
  | c :: cs =>
    if c = '.' then some 0
    else if c.isDigit then (decCount cs).map (· + 1) else none

/-- `s` ends in a decimal point followed by exactly eight digits:
the shape `:.8f` output has and `str(float)` output generally lacks. -/
def fracLen8 (s : String) : Bool := decCount s.data.reverse == some 8

/-- Python `range(start, stop, step)` as a list, for positive `step`
(CPython: the length is `(stop - start + step - 1) // step`, clamped
at zero; `//` is floor division, which `Int./` is for positive
divisors). -/
def pyRange (start stop step : Int) : List Int :=
  (List.range ((stop - start + step - 1) / step).toNat).map
    (fun (k : Nat) => start + (k : Int) * step)

/-- `list(range(0, MAX_TIMESTEP + 1, TIMESTEP_INTERVAL))` (source line 65),
parametrised by the two configuration constants. -/
def desired_timesteps (maxT interval : Int) : List Int :=
  pyRange 0 (maxT + 1) interval

/-- Source line 43. -/
def MAX_TIMESTEP : Int := 100000

/-- Source line 44. -/
def TIMESTEP_INTERVAL : Int := 100

/-- Source lines 47-52: the atom-type mapping dictionary, as an
association list. -/
def ATOM_TYPE_MAP : List (String × String) :=
  [(("1"), ("C")), (("2"), ("Si")), (("3"), ("O"))]

/-- Python `m.get(k, d)` on an association list. -/
def dictGet (m : List (String × String)) (k d : String) : String :=
  (m.lookup k).getD d

/-- The two exception kinds `process_dump_file` can raise. -/
inductive PyErr
  | indexError
  | valueError
deriving DecidableEq

/-- One parsed atom: the tuple appended to `atoms_data` at source
line 116. -/
structure AtomData where
  mapped_type : String
  x : ℚ
  y : ℚ
  z : ℚ
  fx : ℚ
  fy : ℚ
  fz : ℚ
deriving DecidableEq

/-- The line `i` positions ahead of the current stream position, with
Python's end-of-file `readline()` result (the empty string) past the
end. -/
def lineAt (r : List String) (i : Nat) : String := (r[i]?).getD ""

/-- Source lines 109-116 on the whitespace-split fields of one atom line:
`parts[1]` is the raw type token (`IndexError` when missing),
`parts[2:5]` unpack to x, y, z and `parts[8:11]` to fx, fy, fz
(a `ValueError` when fewer than three values or a non-numeric one),
`parts[11]` is the per-atom energy.  The eight `Option String`
arguments are those fields of `parts`. -/
def parseAtomParts (tm : List (String × String))
    (p1 p2 p3 p4 p8 p9 p10 p11 : Option String) : Except PyErr (AtomData × ℚ) :=
  match p1 with
  | none => .error .indexError
  | some atom_type =>
    match p2, p3, p4 with
    | some xs, some ys, some zs =>
      match parseQ? xs, parseQ? ys, parseQ? zs with
      | some x, some y, some z =>
        match p8, p9, p10 with
        | some fxs, some fys, some fzs =>
          match parseQ? fxs, parseQ? fys, parseQ? fzs with
          | some fx, some fy, some fz =>
            match p11 with
            | none => .error .indexError
            | some es =>
              match parseQ? es with
              | none => .error .valueError
              | some energy =>
                .ok (⟨dictGet tm atom_type ("X"), x, y, z, fx, fy, fz⟩, energy)
          | _, _, _ => .error .valueError
        | _, _, _ => .error .valueError
      | _, _, _ => .error .valueError
    | _, _, _ => .error .valueError

/-- Parse one atom line (source lines 109-116): split it and read the
fixed field indices. -/
def parseAtomLineE (tm : List (String × String)) (line : String) :
    Except PyErr (AtomData × ℚ) :=
  let parts := pySplit line
  parseAtomParts tm parts[1]? parts[2]? parts[3]? parts[4]?
    parts[8]? parts[9]? parts[10]? parts[11]?

/-- The raw 0-indexed field 11 of a line, as the rational it parses to
(0 when absent or unparseable; only quoted for lines that do parse). -/
def energyOfLine (l : String) : ℚ := (((pySplit l)[11]?).bind parseQ?).getD 0

/-- The atom loop of source lines 108-116: run `n` iterations, each
reading one line, parsing it, appending the tuple to the accumulator
and adding the energy field into the running total. -/
def readAtomsCore (tm : List (String × String)) :
    Nat → List String → List AtomData → ℚ → Except PyErr (List AtomData × ℚ)
  | 0, _, acc, e => .ok (acc, e)
  | n + 1, r, acc, e =>
    match parseAtomLineE tm (lineAt r 0) with
    | .error err => .error err
    | .ok (a, en) => readAtomsCore tm n (r.drop 1) (acc ++ [a]) (e + en)

/-- One bounds line, source lines 95-97: `lo, hi = map(float, line.split())`
(a `ValueError` unless the line splits into exactly two floats). -/
def parseBoundsLine (l : String) : Except PyErr (ℚ × ℚ) :=
  match pySplit l with
  | [a, b] =>
    match parseQ? a, parseQ? b with
    | some lo, some hi => .ok (lo, hi)
    | _, _ => .error .valueError
  | _ => .error .valueError

/-- The metadata line built at source lines 124-127. -/
def metaLine (lx ly lz : ℚ) (category : String) (total_energy : ℚ) : String :=
  ("Lattice=\"") ++ decRepr lx ++ (" 0.0 0.0 0.0 ") ++ decRepr ly ++
    (" 0.0 0.0 0.0 ") ++ decRepr lz ++
    ("\" Properties=species:S:1:pos:R:3:forces:R:3 name=Amorphous_Bulk category=") ++
    category ++ (" energy=") ++ decRepr total_energy ++ (" pbc=\"T T T\"")

/-- One rendered atom line, source lines 129-132. -/
def renderAtomLine (a : AtomData) : String :=
  a.mapped_type ++ (" ") ++ formatFixed8 a.x ++ (" ") ++ formatFixed8 a.y ++
    (" ") ++ formatFixed8 a.z ++ (" ") ++ formatFixed8 a.fx ++ (" ") ++
    formatFixed8 a.fy ++ (" ") ++ formatFixed8 a.fz

/-- The full-parse path, source lines 89-134, applied to the stream
positioned just after the timestep line `r[0]` is then the
`ITEM: NUMBER OF ATOMS` marker (discarded), `r[1]` the count, `r[2]` the
box-bounds marker (discarded), `r[3]`-`r[5]` the bounds, `r[6]` the
atoms marker (discarded), and `r[7]` on the atom lines.  Returns the
frame block (as its list of lines) and the number of lines consumed
(7 header lines plus the declared atom count); the loop resumes that far
into the stream. -/
def fullParse (tm : List (String × String)) (base : String) (timestep : Int)
    (r : List String) : Except PyErr (List String × Nat) :=
  match parseInt? (pyStrip (lineAt r 1)) with
  | none => .error .valueError
  | some num_atoms =>
    match parseBoundsLine (lineAt r 3), parseBoundsLine (lineAt r 4),
        parseBoundsLine (lineAt r 5) with
    | .error e, _, _ => .error e
    | _, .error e, _ => .error e
    | _, _, .error e => .error e
    | .ok (xlo, xhi), .ok (ylo, yhi), .ok (zlo, zhi) =>
      let lx := xhi - xlo
      let ly := yhi - ylo
      let lz := zhi - zlo
      match readAtomsCore tm num_atoms.toNat (r.drop 7) [] 0 with
      | .error e => .error e
      | .ok (atoms_data, total_energy) =>
        let category := base ++ ("-") ++ toString timestep
        let frame_content := toString num_atoms ::
          metaLine lx ly lz category total_energy ::
          atoms_data.map renderAtomLine
        .ok (frame_content, 7 + num_atoms.toNat)

/-- The skip path, source lines 80-87, applied to the stream positioned
just after the timestep line: discard six lines, read one line and break
at end of file (`.ok none`), then read the next line, take the integer
value of its first whitespace-split field as the count, and skip that
many further lines — `.ok (some k)` is the total number of lines
consumed, and the loop resumes that far into the stream.  (Note:
positionally that "count" line is already the first atom line of the
frame.) -/
def skipFrame (r : List String) : Except PyErr (Option Nat) :=
  match r.drop 6 with
  | [] => .ok none
  | _ :: rest3 =>
    match rest3 with
    | [] => .error .indexError
    | l2 :: _ =>
      match (pySplit l2).head? with
      | none => .error .indexError
      | some tok =>
        match parseInt? tok with
        | none => .error .valueError
        | some num => .ok (some (8 + num.toNat))

/-- The marker the scanner searches for, source line 74. -/
def ITEM_TIMESTEP : List Char := ("ITEM: TIMESTEP").data

/-- The main loop of `process_dump_file`, source lines 69-134: scan for a
line containing "ITEM: TIMESTEP", read the next line as the timestep,
then skip or fully parse the frame depending on the sampling policy,
accumulating each selected frame's block (as its list of lines). -/
def processLines (tm : List (String × String)) (desired : List Int)
    (base : String) :
    List String → List (List String) → Except PyErr (List (List String))
  | [], acc => .ok acc
  | line :: rest, acc =>
    if containsSeq ITEM_TIMESTEP line.data = false then
      processLines tm desired base rest acc
    else
      match rest with
      | [] => .error .valueError
      | tline :: rest1 =>
        match parseInt? (pyStrip tline) with
        | none => .error .valueError
        | some timestep =>
          if desired.contains timestep = false then
            match skipFrame rest1 with
            | .error e => .error e
            | .ok none => .ok acc
            | .ok (some used) => processLines tm desired base (rest1.drop used) acc
          else
            match fullParse tm base timestep rest1 with
            | .error e => .error e
            | .ok (block, used) =>
              processLines tm desired base (rest1.drop used) (acc ++ [block])
termination_by ls _ => ls.length
decreasing_by
  · simp
  · simp only [List.length_drop, List.length_cons]
    omega
  · simp only [List.length_drop, List.length_cons]
    omega

/-- `process_dump_file` (source lines 63-136) for one already-opened
stream: the per-file configuration (type map, sampling constants, the
category stem derived from the file path at lines 119-121) is passed in,
and each selected frame's block is joined with newlines as at line 134. -/
def process_dump_file (tm : List (String × String)) (maxT interval : Int)
    (base : String) (lines : List String) : Except PyErr (List String) :=
  match processLines tm (desired_timesteps maxT interval) base lines [] with
  | .error e => .error e
  | .ok blocks => .ok (blocks.map (fun b => String.intercalate ("\n") b))

/-- The three atom lines of the 3-atom example frame (spec section 8's
end-to-end scenario: types 1, 2, 1 and per-atom energies 1.0, 2.5, -0.5). -/
def exAtoms : List String :=
  [("1 1 0.5 0.5 0.5 0.0 0.0 0.0 0.1 0.1 0.1 1.0"),
   ("2 2 1.5 1.5 1.5 0.0 0.0 0.0 0.2 0.2 0.2 2.5"),
   ("3 1 2.5 2.5 2.5 0.0 0.0 0.0 0.3 0.3 0.3 -0.5")]

/-- A full 3-atom frame at timestep 0 with bounds (0,10), (0,5), (0,2). -/
def exFrame : List String :=
  [("ITEM: TIMESTEP"), ("0"), ("ITEM: NUMBER OF ATOMS"), ("3"),
   ("ITEM: BOX BOUNDS pp pp pp"), ("0 10"), ("0 5"), ("0 2"),
   ("ITEM: ATOMS id type x y z vx vy vz fx fy fz c_pe")] ++ exAtoms

/-- The body of `exFrame` after its timestep line (the position at which
`skipFrame` and `fullParse` operate). -/
def exFrameBody : List String := exFrame.drop 2

/-- Two one-atom frames: the first at timestep 50 (not selected under
stride 100), the second at timestep 100 (selected).  The first frame's
first atom has id 1, so the skip path misreads the count as 1 and
over-skips onto the second frame's marker line. -/
def twoFrameInput : List String :=
  [("ITEM: TIMESTEP"), ("50"), ("ITEM: NUMBER OF ATOMS"), ("1"),
   ("ITEM: BOX BOUNDS pp pp pp"), ("0 1"), ("0 1"), ("0 1"),
   ("ITEM: ATOMS id type x y z vx vy vz fx fy fz c_pe"),
   ("1 1 0.5 0.5 0.5 0.0 0.0 0.0 0.1 0.1 0.1 1.0"),
   ("ITEM: TIMESTEP"), ("100"), ("ITEM: NUMBER OF ATOMS"), ("1"),
   ("ITEM: BOX BOUNDS pp pp pp"), ("0 1"), ("0 1"), ("0 1"),
   ("ITEM: ATOMS id type x y z vx vy vz fx fy fz c_pe"),
   ("1 1 0.5 0.5 0.5 0.0 0.0 0.0 0.1 0.1 0.1 1.0")]

/-- A frame at timestep 0 declaring -1 atoms (and containing none). -/
def negCountInput : List String :=
  [("ITEM: TIMESTEP"), ("0"), ("ITEM: NUMBER OF ATOMS"), ("-1"),
   ("ITEM: BOX BOUNDS pp pp pp"), ("0 1"), ("0 1"), ("0 1"),
   ("ITEM: ATOMS id type x y z vx vy vz fx fy fz c_pe")]

/-- A frame at timestep 0 declaring 3 atoms but truncated after 2 atom
lines. -/
def truncatedInput : List String :=
  [("ITEM: TIMESTEP"), ("0"), ("ITEM: NUMBER OF ATOMS"), ("3"),
   ("ITEM: BOX BOUNDS pp pp pp"), ("0 1"), ("0 1"), ("0 1"),
   ("ITEM: ATOMS id type x y z vx vy vz fx fy fz c_pe"),
   ("1 1 0.5 0.5 0.5 0.0 0.0 0.0 0.1 0.1 0.1 1.0"),
   ("2 2 1.5 1.5 1.5 0.0 0.0 0.0 0.2 0.2 0.2 2.5")]

/-- The `desired_timesteps` list for the source's configured constants. -/
def DESIRED : List Int := desired_timesteps MAX_TIMESTEP TIMESTEP_INTERVAL

/-- The block the example frame renders to (established by theorem below). -/
def exBlock : List String :=
  ((processLines ATOM_TYPE_MAP DESIRED ("run") exFrame []).toOption.getD []).headD []

/-- The metadata line of that block. -/
def exMeta : String := (exBlock[1]?).getD ""

/-- Whether an atom line parses successfully. -/
def isOkB (x : Except PyErr (AtomData × ℚ)) : Bool :=
  match x with
  | .ok _ => true
  | .error _ => false

/-- Whether a bounds line parses successfully. -/
def boundsOkB (l : String) : Bool :=
  match parseBoundsLine l with
  | .ok _ => true
  | .error _ => false

/-- Two raw atom lines agree on every whitespace-split field the parser
reads (0-indexed fields 1-4 and 8-11); fields 0 and 5-7 are free to
differ. -/
def usedFieldsAgreeB (l₁ l₂ : String) : Bool :=
  ([1, 2, 3, 4, 8, 9, 10, 11]).all
    (fun i => (pySplit l₁)[i]? == (pySplit l₂)[i]?)

/-- A one-atom selected frame at timestep 0; the atom line has id 1 and
zero velocities. -/
def niInputA : List String :=
  [("ITEM: TIMESTEP"), ("0"), ("ITEM: NUMBER OF ATOMS"), ("1"),
   ("ITEM: BOX BOUNDS pp pp pp"), ("0 1"), ("0 1"), ("0 1"),
   ("ITEM: ATOMS id type x y z vx vy vz fx fy fz c_pe"),
   ("1 1 0.5 0.5 0.5 0.0 0.0 0.0 0.1 0.1 0.1 1.0")]

/-- The same stream with the atom line's id and velocity fields
(0-indexed fields 0 and 5-7) changed. -/
def niInputB : List String :=
  [("ITEM: TIMESTEP"), ("0"), ("ITEM: NUMBER OF ATOMS"), ("1"),
   ("ITEM: BOX BOUNDS pp pp pp"), ("0 1"), ("0 1"), ("0 1"),
   ("ITEM: ATOMS id type x y z vx vy vz fx fy fz c_pe"),
   ("9 1 0.5 0.5 0.5 7.0 8.0 9.0 0.1 0.1 0.1 1.0")]

/-- Every character `padDigits` produces is a decimal digit. -/
theorem padDigits_isDigit (d n : Nat) : ∀ c ∈ padDigits d n, c.isDigit = true := by
  intro c hc
  simp only [padDigits, List.mem_map, List.mem_reverse, List.mem_range] at hc
  obtain ⟨i, -, rfl⟩ := hc
  have hlt : n / 10 ^ i % 10 < 10 := Nat.mod_lt _ (by norm_num)
  have h10 : ∀ m < 10, (Nat.digitChar m).isDigit = true := by decide
  exact h10 _ hlt

/-- `padDigits d n` has exactly `d` characters. -/
theorem padDigits_length (d n : Nat) : (padDigits d n).length = d := by
  simp [padDigits]

/-- `decCount` counts an all-digit block up to the following point. -/
theorem decCount_digit_block (l r : List Char) (h : ∀ c ∈ l, c.isDigit = true) :
    decCount (l ++ '.' :: r) = some l.length := by
  induction l with
  | nil => simp [decCount]
  | cons c cs ih =>
    have hc : c.isDigit = true := h c (by simp)
    have hne : ¬(c = '.') := by
      rintro rfl
      exact absurd hc (by decide)
    simp [decCount, hne, hc, ih (fun x hx => h x (by simp [hx]))]

/-- Membership in a zero-based `pyRange`. -/
theorem pyRange_zero_mem (stop step t : Int) :
    t ∈ pyRange 0 stop step ↔
      ∃ k : ℕ, k < ((stop - 0 + step - 1) / step).toNat ∧ t = (k : ℤ) * step := by
  unfold pyRange
  constructor
  · intro h
    obtain ⟨k, hk, hkt⟩ := List.mem_map.mp h
    exact ⟨k, List.mem_range.mp hk, by linarith⟩
  · rintro ⟨k, hk, ht⟩
    exact List.mem_map.mpr ⟨k, List.mem_range.mpr hk, by linarith⟩

/-- Claim C2: a timestep `t` read from a frame is selected for full
parsing (it is contained in `list(range(0, m + 1, s))`) iff
`0 ≤ t ≤ m` and `t mod s = 0`, for every positive stride `s` and
every inclusive bound `m`. -/
theorem c2_selected_iff_mod_and_bound (s m t : Int) (hs : 0 < s) :
    (desired_timesteps m s).contains t = true ↔ 0 ≤ t ∧ t ≤ m ∧ t % s = 0 := by
  have hlen : m + 1 - 0 + s - 1 = m + s := by ring
  rw [show ((desired_timesteps m s).contains t = true ↔
      t ∈ desired_timesteps m s) by simp]
  rw [show desired_timesteps m s = pyRange 0 (m + 1) s from rfl]
  rw [pyRange_zero_mem (m + 1) s t, hlen]
  constructor
  · rintro ⟨k, hk, rfl⟩
    have hk2 : (k : ℤ) < (m + s) / s := Int.lt_toNat.mp hk
    have h4 : ((k : ℤ) + 1) * s ≤ m + s := (Int.le_ediv_iff_mul_le hs).mp (by omega)
    refine ⟨by positivity, by nlinarith, by simp [Int.mul_emod_left]⟩
  · rintro ⟨h0, hm, hmod⟩
    obtain ⟨k, rfl⟩ := Int.dvd_of_emod_eq_zero hmod
    have hk0 : 0 ≤ k := by nlinarith
    refine ⟨k.toNat, ?_, by rw [Int.toNat_of_nonneg hk0]; ring⟩
    rw [Int.lt_toNat, Int.toNat_of_nonneg hk0]
    have h5 : (k + 1) * s ≤ m + s := by nlinarith
    have h6 : k + 1 ≤ (m + s) / s := (Int.le_ediv_iff_mul_le hs).mpr h5
    omega

/-- Witness for C2 at stride 3, bound 10, timestep 6. -/
theorem c2_selected_iff_mod_and_bound_witness :
    (0 : ℤ) < 3 ∧
      ((desired_timesteps 10 3).contains 6 = true ↔
        0 ≤ (6 : ℤ) ∧ (6 : ℤ) ≤ 10 ∧ (6 : ℤ) % 3 = 0) :=
  ⟨by decide, c2_selected_iff_mod_and_bound 3 10 6 (by decide)⟩

/-- Claim C1 (exhibits the code bug): on a stream holding a non-selected
one-atom frame at timestep 50 followed by a selected frame at timestep
100, the scanner emits nothing, although timestep 100 is selected by the
configured sampling policy — the skip path misreads the first atom
line's id as the atom count and over-skips onto the second frame's
marker line. -/
theorem c1_selected_frame_dropped :
    processLines ATOM_TYPE_MAP DESIRED ("run") twoFrameInput [] = .ok [] ∧
    DESIRED.contains 100 = true :=
  ⟨by with_unfolding_all rfl, by with_unfolding_all rfl⟩

/-- Claim C3 (exhibits the code bug): on the example 3-atom frame body
(10 lines after the timestep line), the skip path consumes only 9 lines
— it reads the first atom line's id field (1) as the count and skips
just one further line — while the full parse consumes all 10, so the
stream position after a skip differs from the position after a full
parse of the same frame. -/
theorem c3_skip_and_full_parse_disagree :
    skipFrame exFrameBody = .ok (some 9) ∧
    fullParse ATOM_TYPE_MAP ("run") 0 exFrameBody =
      .ok ([("3"),
        ("Lattice=\"10.0 0.0 0.0 0.0 5.0 0.0 0.0 0.0 2.0\" Properties=species:S:1:pos:R:3:forces:R:3 name=Amorphous_Bulk category=run-0 energy=3.0 pbc=\"T T T\""),
        ("C 0.50000000 0.50000000 0.50000000 0.10000000 0.10000000 0.10000000"),
        ("Si 1.50000000 1.50000000 1.50000000 0.20000000 0.20000000 0.20000000"),
        ("C 2.50000000 2.50000000 2.50000000 0.30000000 0.30000000 0.30000000")],
        10) ∧
    (9 : Nat) ≠ 10 :=
  ⟨by with_unfolding_all rfl, by with_unfolding_all rfl, by decide⟩

/-- Claim C5, counterexample: the metadata line rendered for the 3-atom
frame with bounds (0,10), (0,5), (0,2) does not contain the claimed
lattice string `10 0.0 0.0 0.0 5 0.0 0.0 0.0 2` — the code formats the
edge lengths with Python float `str`, giving `10.0`, `5.0` and `2.0`. -/
theorem c5_lattice_not_claimed_string :
    exMeta =
      ("Lattice=\"10.0 0.0 0.0 0.0 5.0 0.0 0.0 0.0 2.0\" Properties=species:S:1:pos:R:3:forces:R:3 name=Amorphous_Bulk category=run-0 energy=3.0 pbc=\"T T T\"") ∧
    containsSeq ("10 0.0 0.0 0.0 5 0.0 0.0 0.0 2").data exMeta.data = false :=
  ⟨by with_unfolding_all rfl, by with_unfolding_all rfl⟩

/-- Claim C5 as amended: for that frame the rendered metadata line
carries exactly the lattice values `10.0 0.0 0.0 0.0 5.0 0.0 0.0 0.0
2.0`. -/
theorem c5_lattice_rendered_string :
    containsSeq ("Lattice=\"10.0 0.0 0.0 0.0 5.0 0.0 0.0 0.0 2.0\"").data
      exMeta.data = true := by
  with_unfolding_all rfl

/-- Claim C4, counterexample: the first lattice edge length on the
example frame's metadata line renders as `10.0`, which is not 8-decimal
fixed-point — metadata reals (lattice lengths and total energy) use
Python's default float representation, not the `:.8f` format. -/
theorem c4_lattice_not_eight_decimal :
    decRepr ((10 : ℚ) - 0) = ("10.0") ∧
    containsSeq (decRepr ((10 : ℚ) - 0)).data exMeta.data = true ∧
    fracLen8 (decRepr ((10 : ℚ) - 0)) = false :=
  ⟨by with_unfolding_all rfl, by with_unfolding_all rfl, by with_unfolding_all rfl⟩

/-- Claim C4 as amended: the per-atom position and force fields are
formatted in 8-decimal fixed-point (every output of the `:.8f`
formatter ends in a point followed by exactly eight digits), as the
numeric fields of the example block's atom lines illustrate; metadata
reals instead use the default float representation. -/
theorem c4_fixed_point_fields_eight_decimal :
    (∀ q : ℚ, fracLen8 (formatFixed8 q) = true) ∧
    (exBlock.drop 2).all (fun l => ((pySplit l).drop 1).all fracLen8) = true := by
  constructor
  · intro q
    have h1 : ∀ (s1 s2 : List Char) (fp : Nat),
        decCount (s1 ++ s2 ++ '.' :: padDigits 8 fp).reverse = some 8 := by
      intro s1 s2 fp
      rw [List.append_assoc, List.reverse_append, List.reverse_append,
        List.reverse_cons, List.append_assoc, List.append_assoc,
        List.singleton_append]
      rw [decCount_digit_block _ _
        (fun c hc => padDigits_isDigit 8 fp c (List.mem_reverse.mp hc))]
      simp [padDigits_length]
    have h2 : formatFixed8 q = ⟨(if rhe (q * 100000000) < 0 then ['-'] else []) ++
        (Nat.repr ((rhe (q * 100000000)).natAbs / 100000000)).data ++
        '.' :: padDigits 8 ((rhe (q * 100000000)).natAbs % 100000000)⟩ := rfl
    rw [fracLen8, h2]
    rw [show (String.data ⟨(if rhe (q * 100000000) < 0 then ['-'] else []) ++
        (Nat.repr ((rhe (q * 100000000)).natAbs / 100000000)).data ++
        '.' :: padDigits 8 ((rhe (q * 100000000)).natAbs % 100000000)⟩) =
        ((if rhe (q * 100000000) < 0 then ['-'] else []) ++
        (Nat.repr ((rhe (q * 100000000)).natAbs / 100000000)).data ++
        '.' :: padDigits 8 ((rhe (q * 100000000)).natAbs % 100000000)) from rfl]
    rw [h1]
    rfl
  · with_unfolding_all rfl

/-- Claim C7: looking a raw atom-type token up in the type map never
fails: a token absent from the map yields the sentinel label `X`, and a
token present in the map yields its (first) mapped species label. -/
theorem c7_type_lookup_defaults (m : List (String × String)) (tok : String) :
    (tok ∉ m.map Prod.fst → dictGet m tok ("X") = ("X")) ∧
    (tok ∈ m.map Prod.fst → ∃ v, (tok, v) ∈ m ∧ dictGet m tok ("X") = v) := by
  induction m with
  | nil => exact ⟨fun _ => rfl, fun h => absurd h (by simp)⟩
  | cons kv m ih =>
    obtain ⟨k, v⟩ := kv
    by_cases hk : tok = k
    · subst hk
      refine ⟨fun h => absurd (by simp) h, fun _ => ⟨v, by simp, ?_⟩⟩
      simp [dictGet, List.lookup]
    · constructor
      · intro h
        have h1 : tok ∉ m.map Prod.fst := by
          simp only [List.map_cons, List.mem_cons] at h
          tauto
        have h2 := ih.1 h1
        have hbeq : (tok == k) = false := beq_eq_false_iff_ne.mpr hk
        simpa [dictGet, List.lookup, hbeq] using h2
      · intro h
        have h1 : tok ∈ m.map Prod.fst := by
          simp only [List.map_cons, List.mem_cons] at h
          tauto
        obtain ⟨w, hw1, hw2⟩ := ih.2 h1
        have hbeq : (tok == k) = false := beq_eq_false_iff_ne.mpr hk
        exact ⟨w, by simp [hw1], by simpa [dictGet, List.lookup, hbeq] using hw2⟩

/-- Witness for C7: token 7 is unmapped and yields `X`; token 2 is
mapped and yields `Si`. -/
theorem c7_type_lookup_defaults_witness :
    dictGet ATOM_TYPE_MAP ("7") ("X") = ("X") ∧
    (∃ v, (("2"), v) ∈ ATOM_TYPE_MAP ∧ dictGet ATOM_TYPE_MAP ("2") ("X") = v) :=
  ⟨(c7_type_lookup_defaults ATOM_TYPE_MAP ("7")).1 (by decide),
   (c7_type_lookup_defaults ATOM_TYPE_MAP ("2")).2 (by decide)⟩

/-- Claim C9, counterexample: a selected frame declaring `-1` atoms
produces a block whose first line is `-1` while the block contains zero
atom-data lines — the declared count on the first line differs from the
number of atom-data lines, with no error raised. -/
theorem c9_negative_count_mismatch :
    processLines ATOM_TYPE_MAP DESIRED ("run") negCountInput [] =
      .ok [[("-1"),
        ("Lattice=\"1.0 0.0 0.0 0.0 1.0 0.0 0.0 0.0 1.0\" Properties=species:S:1:pos:R:3:forces:R:3 name=Amorphous_Bulk category=run-0 energy=0.0 pbc=\"T T T\"")]] ∧
    (([("-1"),
        ("Lattice=\"1.0 0.0 0.0 0.0 1.0 0.0 0.0 0.0 1.0\" Properties=species:S:1:pos:R:3:forces:R:3 name=Amorphous_Bulk category=run-0 energy=0.0 pbc=\"T T T\"")] : List String).drop 2).length = 0 ∧
    (("-1") : String) ≠ toString (0 : Nat) :=
  ⟨by with_unfolding_all rfl, by decide, by decide⟩

/-- A successful atom-line parse's energy component is the parse of the
line's raw 0-indexed field 11. -/
theorem parseAtomLineE_energy (tm : List (String × String)) (l : String)
    (a : AtomData) (en : ℚ) (h : parseAtomLineE tm l = .ok (a, en)) :
    energyOfLine l = en := by
  simp only [parseAtomLineE, parseAtomParts] at h
  unfold energyOfLine
  repeat' split at h
  all_goals simp_all

/-- Running the atom loop against fewer well-formed atom lines than the
requested count always fails with an IndexError: the loop runs off the
end of the stream, reads the end-of-file empty line, splits it into no
fields and indexes field 1. -/
theorem readAtomsCore_short (tm : List (String × String)) :
    ∀ (n : Nat) (r : List String) (acc : List AtomData) (e : ℚ),
      r.length < n →
      r.all (fun l => isOkB (parseAtomLineE tm l)) = true →
      readAtomsCore tm n r acc e = .error .indexError := by
  intro n
  induction n with
  | zero => intro r acc e h _; omega
  | succ n ih =>
    intro r acc e hlen hall
    cases r with
    | nil => rfl
    | cons l r2 =>
      simp only [List.all_cons, Bool.and_eq_true] at hall
      obtain ⟨h1, h2⟩ := hall
      simp only [readAtomsCore]
      rw [show lineAt (l :: r2) 0 = l by simp [lineAt]]
      unfold isOkB at h1
      split at h1
      · rename_i p hp
        obtain ⟨a, en⟩ := p
        rw [hp]
        exact ih r2 (acc ++ [a]) (e + en) (by simpa using hlen) h2
      · simp at h1

/-- Characterisation of a successful run of the atom loop: it consumes
exactly `n` lines, appends their parses to the accumulator in stream
order, and adds their raw field-11 energies into the running total in
that same left-to-right order. -/
theorem readAtomsCore_spec (tm : List (String × String)) :
    ∀ (n : Nat) (r : List String) (acc : List AtomData) (e : ℚ)
      (as : List AtomData) (E : ℚ),
      readAtomsCore tm n r acc e = .ok (as, E) →
      n ≤ r.length ∧
      (∃ newAs, as = acc ++ newAs ∧ newAs.length = n ∧
        List.Forall₂ (fun l a => ∃ en, parseAtomLineE tm l = .ok (a, en))
          (r.take n) newAs) ∧
      E = (r.take n).foldl (fun x l => x + energyOfLine l) e := by
  intro n
  induction n with
  | zero =>
    intro r acc e as E h
    simp only [readAtomsCore, Except.ok.injEq, Prod.mk.injEq] at h
    obtain ⟨rfl, rfl⟩ := h
    exact ⟨Nat.zero_le _, ⟨[], by simp, rfl, by simp⟩, by simp⟩
  | succ n ih =>
    intro r acc e as E h
    cases r with
    | nil =>
      rw [show readAtomsCore tm (n + 1) [] acc e = .error .indexError from rfl] at h
      exact absurd h (by simp)
    | cons l r2 =>
      simp only [readAtomsCore] at h
      rw [show lineAt (l :: r2) 0 = l by simp [lineAt]] at h
      split at h
      · exact absurd h (by simp)
      · rename_i a en hp
        rw [show (l :: r2).drop 1 = r2 from rfl] at h
        obtain ⟨h1, ⟨newAs, hnew1, hnew2, hnew3⟩, h3⟩ :=
          ih r2 (acc ++ [a]) (e + en) as E h
        refine ⟨by simpa using Nat.succ_le_succ h1,
          ⟨a :: newAs, by rw [hnew1]; simp, by simp [hnew2], ?_⟩, ?_⟩
        · rw [show (l :: r2).take (n + 1) = l :: r2.take n from rfl]
          exact List.Forall₂.cons ⟨en, hp⟩ hnew3
        · rw [show (l :: r2).take (n + 1) = l :: r2.take n from rfl,
            List.foldl_cons, h3, parseAtomLineE_energy tm l a en hp]

/-- A bounds line that passes `boundsOkB` parses to some pair. -/
theorem boundsOkB_ok (l : String) (h : boundsOkB l = true) :
    ∃ p, parseBoundsLine l = .ok p := by
  unfold boundsOkB at h
  split at h
  · rename_i p hp
    exact ⟨p, hp⟩
  · simp at h

/-- Lines containing no `ITEM: TIMESTEP` marker are scanned past without
any other effect. -/
theorem processLines_junk (tm : List (String × String)) (desired : List Int)
    (base : String) :
    ∀ (pre ls : List String) (acc : List (List String)),
      pre.all (fun l => !containsSeq ITEM_TIMESTEP l.data) = true →
      processLines tm desired base (pre ++ ls) acc =
        processLines tm desired base ls acc := by
  intro pre
  induction pre with
  | nil => intro ls acc _; rfl
  | cons p pre ih =>
    intro ls acc hall
    simp only [List.all_cons, Bool.and_eq_true, Bool.not_eq_true'] at hall
    obtain ⟨hp, hrest⟩ := hall
    rw [List.cons_append]
    rw [show processLines tm desired base (p :: (pre ++ ls)) acc =
        processLines tm desired base (pre ++ ls) acc by
      rw [processLines.eq_def]
      simp only [hp]
      rfl]
    exact ih ls acc (by simpa [List.all_eq_true] using hrest)

/-- Characterisation of a successful full parse: the declared count `n`
is read from `r[1]`, exactly `7 + n.toNat` lines are consumed, and the
block is the count line, the metadata line carrying the ordered energy
fold, and the in-order renderings of the parsed atom lines. -/
theorem fullParse_spec (tm : List (String × String)) (base : String) (t : Int)
    (r : List String) (b : List String) (used : Nat)
    (h : fullParse tm base t r = .ok (b, used)) :
    ∃ (n : Int) (lx ly lz : ℚ) (atoms : List AtomData),
      parseInt? (pyStrip (lineAt r 1)) = some n ∧
      atoms.length = n.toNat ∧
      n.toNat ≤ (r.drop 7).length ∧
      used = 7 + n.toNat ∧
      List.Forall₂ (fun l a => ∃ en, parseAtomLineE tm l = .ok (a, en))
        ((r.drop 7).take n.toNat) atoms ∧
      b = toString n ::
        metaLine lx ly lz (base ++ ("-") ++ toString t)
          (((r.drop 7).take n.toNat).foldl (fun x l => x + energyOfLine l) 0) ::
        atoms.map renderAtomLine := by
  simp only [fullParse] at h
  split at h
  · exact absurd h (by simp)
  · rename_i num_atoms hnum
    split at h
    · exact absurd h (by simp)
    · exact absurd h (by simp)
    · exact absurd h (by simp)
    · rename_i xlo xhi ylo yhi zlo zhi hbx hby hbz
      split at h
      · exact absurd h (by simp)
      · rename_i atoms_data total_energy hra
        simp only [Except.ok.injEq, Prod.mk.injEq] at h
        obtain ⟨hb, hused⟩ := h
        obtain ⟨hle, ⟨newAs, hnew1, hnew2, hnew3⟩, hE⟩ :=
          readAtomsCore_spec tm num_atoms.toNat (r.drop 7) [] 0
            atoms_data total_energy hra
        rw [List.nil_append] at hnew1
        subst hnew1
        refine ⟨num_atoms, xhi - xlo, yhi - ylo, zhi - zlo, atoms_data,
          hnum, hnew2, hle, hused.symm, hnew3, ?_⟩
        rw [← hb, hE]

/-- Claim C6: when a selected frame declares more atoms than there are
atom lines left before end of stream (the atom lines present being
well-formed and the frame's header lines in place), processing the
stream fails with an error and returns no blocks at all — in particular
no partial block for the truncated frame. -/
theorem c6_truncated_frame_raises
    (tm : List (String × String)) (desired : List Int) (base : String)
    (pre : List String) (mk tline numMk cl boxMk b1 b2 b3 aMk : String)
    (t n : Int) (atomLines : List String) (acc : List (List String))
    (hpre : pre.all (fun l => !containsSeq ITEM_TIMESTEP l.data) = true)
    (hmk : containsSeq ITEM_TIMESTEP mk.data = true)
    (ht : parseInt? (pyStrip tline) = some t)
    (hsel : desired.contains t = true)
    (hn : parseInt? (pyStrip cl) = some n)
    (hb1 : boundsOkB b1 = true) (hb2 : boundsOkB b2 = true)
    (hb3 : boundsOkB b3 = true)
    (hlen : atomLines.length < n.toNat)
    (hok : atomLines.all (fun l => isOkB (parseAtomLineE tm l)) = true) :
    processLines tm desired base
      (pre ++ mk :: tline :: numMk :: cl :: boxMk :: b1 :: b2 :: b3 :: aMk ::
        atomLines) acc = .error .indexError := by
  rw [processLines_junk tm desired base pre _ acc hpre]
  have hfull : fullParse tm base t
      (numMk :: cl :: boxMk :: b1 :: b2 :: b3 :: aMk :: atomLines) =
      .error .indexError := by
    obtain ⟨⟨xlo, xhi⟩, hp1⟩ := boundsOkB_ok b1 hb1
    obtain ⟨⟨ylo, yhi⟩, hp2⟩ := boundsOkB_ok b2 hb2
    obtain ⟨⟨zlo, zhi⟩, hp3⟩ := boundsOkB_ok b3 hb3
    have hra : readAtomsCore tm n.toNat atomLines [] 0 = .error .indexError :=
      readAtomsCore_short tm n.toNat atomLines [] 0 hlen hok
    simp only [fullParse]
    rw [show lineAt (numMk :: cl :: boxMk :: b1 :: b2 :: b3 :: aMk ::
      atomLines) 1 = cl by simp [lineAt]]
    rw [hn]
    rw [show lineAt (numMk :: cl :: boxMk :: b1 :: b2 :: b3 :: aMk ::
      atomLines) 3 = b1 by simp [lineAt]]
    rw [show lineAt (numMk :: cl :: boxMk :: b1 :: b2 :: b3 :: aMk ::
      atomLines) 4 = b2 by simp [lineAt]]
    rw [show lineAt (numMk :: cl :: boxMk :: b1 :: b2 :: b3 :: aMk ::
      atomLines) 5 = b3 by simp [lineAt]]
    rw [hp1, hp2, hp3]
    rw [show (numMk :: cl :: boxMk :: b1 :: b2 :: b3 :: aMk ::
      atomLines).drop 7 = atomLines from rfl]
    simp only [hra]
  rw [processLines.eq_def]
  simp only [ht]
  rw [if_neg (show ¬containsSeq ITEM_TIMESTEP mk.data = false by rw [hmk]; decide)]
  rw [if_neg (show ¬desired.contains t = false by rw [hsel]; decide)]
  rw [hfull]

/-- Witness for C6: the truncated 3-atom frame (only two atom lines
present) makes processing fail with an IndexError and yield no blocks. -/
theorem c6_truncated_frame_raises_witness :
    processLines ATOM_TYPE_MAP DESIRED ("run") truncatedInput [] =
      .error .indexError := by
  have h := c6_truncated_frame_raises ATOM_TYPE_MAP DESIRED ("run") []
    ("ITEM: TIMESTEP") ("0") ("ITEM: NUMBER OF ATOMS") ("3")
    ("ITEM: BOX BOUNDS pp pp pp") ("0 1") ("0 1") ("0 1")
    ("ITEM: ATOMS id type x y z vx vy vz fx fy fz c_pe")
    0 3
    [("1 1 0.5 0.5 0.5 0.0 0.0 0.0 0.1 0.1 0.1 1.0"),
     ("2 2 1.5 1.5 1.5 0.0 0.0 0.0 0.2 0.2 0.2 2.5")] []
    (by decide) (by decide)
    (by with_unfolding_all rfl) (by with_unfolding_all rfl)
    (by with_unfolding_all rfl)
    (by with_unfolding_all rfl) (by with_unfolding_all rfl)
    (by with_unfolding_all rfl)
    (by decide) (by with_unfolding_all rfl)
  exact h

/-- Claim C8: when a selected frame parses successfully, the energy
written into its metadata line is the left-to-right fold, in atom-line
order, of the raw 0-indexed field-11 values of exactly the frame's
declared-count-many atom lines — no reordering of the summands. -/
theorem c8_total_energy_ordered_fold (tm : List (String × String))
    (base : String) (t : Int) (r : List String) (b : List String) (used : Nat)
    (h : fullParse tm base t r = .ok (b, used)) :
    ∃ (n : Int) (lx ly lz : ℚ),
      parseInt? (pyStrip (lineAt r 1)) = some n ∧
      b[1]? = some (metaLine lx ly lz (base ++ ("-") ++ toString t)
        (((r.drop 7).take n.toNat).foldl (fun x l => x + energyOfLine l) 0)) := by
  obtain ⟨n, lx, ly, lz, atoms, h1, -, -, -, -, h6⟩ :=
    fullParse_spec tm base t r b used h
  refine ⟨n, lx, ly, lz, h1, ?_⟩
  rw [h6]
  simp

/-- Witness for C8 on the example frame: per-atom energies 1.0, 2.5,
-0.5 accumulate in order into the metadata energy. -/
theorem c8_total_energy_ordered_fold_witness :
    ∃ (n : Int) (lx ly lz : ℚ),
      parseInt? (pyStrip (lineAt exFrameBody 1)) = some n ∧
      (([("3"),
        ("Lattice=\"10.0 0.0 0.0 0.0 5.0 0.0 0.0 0.0 2.0\" Properties=species:S:1:pos:R:3:forces:R:3 name=Amorphous_Bulk category=run-0 energy=3.0 pbc=\"T T T\""),
        ("C 0.50000000 0.50000000 0.50000000 0.10000000 0.10000000 0.10000000"),
        ("Si 1.50000000 1.50000000 1.50000000 0.20000000 0.20000000 0.20000000"),
        ("C 2.50000000 2.50000000 2.50000000 0.30000000 0.30000000 0.30000000")] :
          List String))[1]? =
        some (metaLine lx ly lz (("run") ++ ("-") ++ toString (0 : Int))
          (((exFrameBody.drop 7).take n.toNat).foldl
            (fun x l => x + energyOfLine l) 0)) :=
  c8_total_energy_ordered_fold ATOM_TYPE_MAP ("run") 0 exFrameBody
    [("3"),
     ("Lattice=\"10.0 0.0 0.0 0.0 5.0 0.0 0.0 0.0 2.0\" Properties=species:S:1:pos:R:3:forces:R:3 name=Amorphous_Bulk category=run-0 energy=3.0 pbc=\"T T T\""),
     ("C 0.50000000 0.50000000 0.50000000 0.10000000 0.10000000 0.10000000"),
     ("Si 1.50000000 1.50000000 1.50000000 0.20000000 0.20000000 0.20000000"),
     ("C 2.50000000 2.50000000 2.50000000 0.30000000 0.30000000 0.30000000")]
    10 (by with_unfolding_all rfl)

/-- `toString` on a nonnegative integer agrees with `toString` on its
natural-number value. -/
theorem toString_int_nonneg (n : Int) (h : 0 ≤ n) :
    toString n = toString n.toNat := by
  obtain ⟨m, rfl⟩ := Int.eq_ofNat_of_zero_le h
  rfl

/-- An infix of a dropped suffix is an infix of the stream two lines
further out. -/
theorem isInfix_drop_cons₂ (src tail : List String) (used : Nat)
    (line l2 : String) (h : src <:+: tail.drop used) :
    src <:+: line :: l2 :: tail :=
  h.trans ((List.drop_suffix used tail).trans
    ((List.suffix_cons l2 tail).trans
      (List.suffix_cons line (l2 :: tail)))).isInfix

/-- Claim C9 as amended: every block a run of the scanner adds to the
accumulator renders one frame: its first line is the declared count
`n`, a metadata line follows, and then exactly `n.toNat` atom-data
lines, which are the renderings of the in-order parses of a contiguous
run of `n.toNat` stream lines; for a nonnegative declared count the
first line therefore prints the number of atom-data lines. -/
theorem c9_rendered_block_structure (tm : List (String × String))
    (desired : List Int) (base : String) :
    ∀ (lines : List String) (acc blocks : List (List String)),
      processLines tm desired base lines acc = .ok blocks →
      ∀ b ∈ blocks, b ∈ acc ∨
        ∃ (n : Int) (meta : String) (atoms : List AtomData)
          (src : List String),
          b = toString n :: meta :: atoms.map renderAtomLine ∧
          atoms.length = n.toNat ∧
          src.length = n.toNat ∧
          src <:+: lines ∧
          List.Forall₂ (fun l a => ∃ en, parseAtomLineE tm l = .ok (a, en))
            src atoms ∧
          (0 ≤ n → toString n = toString atoms.length) := by
  intro lines acc
  induction lines, acc using processLines.induct tm desired base with
  | case1 acc =>
    intro blocks h b hb
    rw [processLines.eq_def] at h
    simp only [Except.ok.injEq] at h
    subst h
    exact Or.inl hb
  | case2 line rest acc hcond ih =>
    intro blocks h b hb
    rw [processLines.eq_def] at h
    simp only [hcond, if_true] at h
    rcases ih blocks h b hb with hL | ⟨n, meta, atoms, src, h1, h2, h3, h4, h5, h6⟩
    · exact Or.inl hL
    · exact Or.inr ⟨n, meta, atoms, src, h1, h2, h3,
        h4.trans (List.suffix_cons line rest).isInfix, h5, h6⟩
  | case3 line acc hcond =>
    intro blocks h b hb
    rw [processLines.eq_def] at h
    simp only [hcond, Bool.true_eq_false, if_false, if_true] at h
    exact absurd h (by simp)
  | case4 line acc hcond l2 tail hint =>
    intro blocks h b hb
    rw [processLines.eq_def] at h
    simp only [hcond, hint, Bool.true_eq_false, if_false, if_true] at h
    exact absurd h (by simp)
  | case5 line acc hcond l2 tail num_atoms hint hsel e hsk =>
    intro blocks h b hb
    rw [processLines.eq_def] at h
    simp only [hcond, hint, hsel, hsk, Bool.true_eq_false, if_false,
      if_true] at h
    exact absurd h (by simp)
  | case6 line acc hcond l2 tail num_atoms hint hsel hsk =>
    intro blocks h b hb
    rw [processLines.eq_def] at h
    simp only [hcond, hint, hsel, hsk, Bool.true_eq_false, if_false,
      if_true, Except.ok.injEq] at h
    subst h
    exact Or.inl hb
  | case7 line acc hcond l2 tail num_atoms hint hsel used hsk ih =>
    intro blocks h b hb
    rw [processLines.eq_def] at h
    simp only [hcond, hint, hsel, hsk, Bool.true_eq_false, if_false,
      if_true] at h
    rcases ih blocks h b hb with hL | ⟨n, meta, atoms, src, h1, h2, h3, h4, h5, h6⟩
    · exact Or.inl hL
    · exact Or.inr ⟨n, meta, atoms, src, h1, h2, h3,
        isInfix_drop_cons₂ src tail used line l2 h4, h5, h6⟩
  | case8 line acc hcond l2 tail num_atoms hint hsel e hfp =>
    intro blocks h b hb
    rw [processLines.eq_def] at h
    simp only [hcond, hint, hsel, hfp, Bool.true_eq_false, if_false,
      if_true] at h
    exact absurd h (by simp)
  | case9 line acc hcond l2 tail num_atoms hint hsel block used hfp ih =>
    intro blocks h b hb
    rw [processLines.eq_def] at h
    simp only [hcond, hint, hsel, hfp, Bool.true_eq_false, if_false,
      if_true] at h
    rcases ih blocks h b hb with hL | ⟨n, meta, atoms, src, h1, h2, h3, h4, h5, h6⟩
    · rcases List.mem_append.mp hL with hacc | hblk
      · exact Or.inl hacc
      · -- b is the block of this frame; use the full-parse characterisation
        obtain ⟨n, lx, ly, lz, atoms, hn, hlenat, hle, -, hfa, hbeq⟩ :=
          fullParse_spec tm base num_atoms tail block used hfp
        have hbb : b = block := by simpa using hblk
        refine Or.inr ⟨n, metaLine lx ly lz (base ++ ("-") ++ toString num_atoms)
          (((tail.drop 7).take n.toNat).foldl (fun x l => x + energyOfLine l) 0),
          atoms, (tail.drop 7).take n.toNat, by rw [hbb, hbeq], hlenat, ?_, ?_,
          hfa, ?_⟩
        · rw [List.length_take]
          omega
        · exact (( List.take_prefix _ _).isInfix.trans
            (List.drop_suffix 7 tail).isInfix).trans
            ((List.suffix_cons l2 tail).trans
              (List.suffix_cons line (l2 :: tail))).isInfix
        · intro hn0
          rw [hlenat]
          exact toString_int_nonneg n hn0
    · exact Or.inr ⟨n, meta, atoms, src, h1, h2, h3,
        isInfix_drop_cons₂ src tail used line l2 h4, h5, h6⟩

/-- Witness for C9 on the example frame: its rendered block has first
line `3`, a metadata line, and three atom-data lines rendering the three
source atom lines in order. -/
theorem c9_rendered_block_structure_witness :
    ([("3"),
      ("Lattice=\"10.0 0.0 0.0 0.0 5.0 0.0 0.0 0.0 2.0\" Properties=species:S:1:pos:R:3:forces:R:3 name=Amorphous_Bulk category=run-0 energy=3.0 pbc=\"T T T\""),
      ("C 0.50000000 0.50000000 0.50000000 0.10000000 0.10000000 0.10000000"),
      ("Si 1.50000000 1.50000000 1.50000000 0.20000000 0.20000000 0.20000000"),
      ("C 2.50000000 2.50000000 2.50000000 0.30000000 0.30000000 0.30000000")] :
        List String) ∈ ([] : List (List String)) ∨
    ∃ (n : Int) (meta : String) (atoms : List AtomData) (src : List String),
      ([("3"),
        ("Lattice=\"10.0 0.0 0.0 0.0 5.0 0.0 0.0 0.0 2.0\" Properties=species:S:1:pos:R:3:forces:R:3 name=Amorphous_Bulk category=run-0 energy=3.0 pbc=\"T T T\""),
        ("C 0.50000000 0.50000000 0.50000000 0.10000000 0.10000000 0.10000000"),
        ("Si 1.50000000 1.50000000 1.50000000 0.20000000 0.20000000 0.20000000"),
        ("C 2.50000000 2.50000000 2.50000000 0.30000000 0.30000000 0.30000000")] :
          List String) = toString n :: meta :: atoms.map renderAtomLine ∧
      atoms.length = n.toNat ∧
      src.length = n.toNat ∧
      src <:+: exFrame ∧
      List.Forall₂ (fun l a => ∃ en, parseAtomLineE ATOM_TYPE_MAP l = .ok (a, en))
        src atoms ∧
      (0 ≤ n → toString n = toString atoms.length) :=
  c9_rendered_block_structure ATOM_TYPE_MAP DESIRED ("run") exFrame []
    [[("3"),
      ("Lattice=\"10.0 0.0 0.0 0.0 5.0 0.0 0.0 0.0 2.0\" Properties=species:S:1:pos:R:3:forces:R:3 name=Amorphous_Bulk category=run-0 energy=3.0 pbc=\"T T T\""),
      ("C 0.50000000 0.50000000 0.50000000 0.10000000 0.10000000 0.10000000"),
      ("Si 1.50000000 1.50000000 1.50000000 0.20000000 0.20000000 0.20000000"),
      ("C 2.50000000 2.50000000 2.50000000 0.30000000 0.30000000 0.30000000")]]
    (by with_unfolding_all rfl) _ (by simp)

/-- Two atom lines agreeing on every parser-read field (0-indexed fields
1-4 and 8-11) parse identically, whatever their other fields hold. -/
theorem parseAtomLineE_agree (tm : List (String × String)) (l₁ l₂ : String)
    (h : usedFieldsAgreeB l₁ l₂ = true) :
    parseAtomLineE tm l₁ = parseAtomLineE tm l₂ := by
  simp only [usedFieldsAgreeB, List.all_cons, List.all_nil, Bool.and_eq_true,
    beq_iff_eq, and_true] at h
  obtain ⟨h1, h2, h3, h4, h8, h9, h10, h11⟩ := h
  simp only [parseAtomLineE]
  rw [h1, h2, h3, h4, h8, h9, h10, h11]

/-- The atom loop gives identical results on two streams whose first
`n` lines agree pairwise on the parser-read fields and which share the
rest of the stream. -/
theorem readAtomsCore_agree (tm : List (String × String)) :
    ∀ (n : Nat) (L₁ L₂ r : List String) (acc : List AtomData) (e : ℚ),
      L₁.length = n → L₂.length = n →
      (L₁.zip L₂).all (fun p => usedFieldsAgreeB p.1 p.2) = true →
      readAtomsCore tm n (L₁ ++ r) acc e =
        readAtomsCore tm n (L₂ ++ r) acc e := by
  intro n
  induction n with
  | zero =>
    intro L₁ L₂ r acc e h1 h2 _
    rw [List.length_eq_zero.mp h1, List.length_eq_zero.mp h2]
  | succ n ih =>
    intro L₁ L₂ r acc e h1 h2 hagree
    cases L₁ with
    | nil => simp at h1
    | cons a L₁ =>
      cases L₂ with
      | nil => simp at h2
      | cons c L₂ =>
        simp only [List.zip_cons_cons, List.all_cons, Bool.and_eq_true] at hagree
        obtain ⟨hac, hrest⟩ := hagree
        simp only [List.cons_append, readAtomsCore]
        rw [show lineAt (a :: (L₁ ++ r)) 0 = a by simp [lineAt]]
        rw [show lineAt (c :: (L₂ ++ r)) 0 = c by simp [lineAt]]
        rw [parseAtomLineE_agree tm a c hac]
        cases hp : parseAtomLineE tm c with
        | error e2 => rfl
        | ok p =>
          obtain ⟨ad, en⟩ := p
          show readAtomsCore tm n (L₁ ++ r) (acc ++ [ad]) (e + en) =
            readAtomsCore tm n (L₂ ++ r) (acc ++ [ad]) (e + en)
          exact ih L₁ L₂ r (acc ++ [ad]) (e + en) (by simpa using h1)
            (by simpa using h2) hrest

/-- One scanner step on a selected frame, folded into the outcome of its
full parse. -/
theorem processLines_step_sel (tm : List (String × String))
    (desired : List Int) (base : String) (mk tline : String)
    (rest1 : List String) (acc : List (List String)) (t : Int)
    (hmk : containsSeq ITEM_TIMESTEP mk.data = true)
    (ht : parseInt? (pyStrip tline) = some t)
    (hsel : desired.contains t = true) :
    processLines tm desired base (mk :: tline :: rest1) acc =
      match fullParse tm base t rest1 with
      | .error e => .error e
      | .ok (block, used) =>
        processLines tm desired base (rest1.drop used) (acc ++ [block]) := by
  rw [processLines.eq_def]
  simp only [hmk, ht, hsel, Bool.true_eq_false, if_false, if_true]

/-- Claim C10: the rendered output is independent of the atom lines'
id and velocity fields.  Two streams that differ only in fields the
parser never reads (the hypotheses constrain only fields 1-4 and 8-11
of the selected frame's atom lines, leaving fields 0 and 5-7 free)
produce identical results, whatever the shared remainder of the stream
holds. -/
theorem c10_unused_fields_noninterference (tm : List (String × String))
    (desired : List Int) (base : String) (pre : List String)
    (mk tline numMk cl boxMk b1 b2 b3 aMk : String) (t n : Int)
    (L₁ L₂ rest : List String) (acc : List (List String))
    (hpre : pre.all (fun l => !containsSeq ITEM_TIMESTEP l.data) = true)
    (hmk : containsSeq ITEM_TIMESTEP mk.data = true)
    (ht : parseInt? (pyStrip tline) = some t)
    (hsel : desired.contains t = true)
    (hn : parseInt? (pyStrip cl) = some n)
    (hl1 : L₁.length = n.toNat) (hl2 : L₂.length = n.toNat)
    (hagree : (L₁.zip L₂).all (fun p => usedFieldsAgreeB p.1 p.2) = true) :
    processLines tm desired base
      (pre ++ mk :: tline :: numMk :: cl :: boxMk :: b1 :: b2 :: b3 :: aMk ::
        (L₁ ++ rest)) acc =
    processLines tm desired base
      (pre ++ mk :: tline :: numMk :: cl :: boxMk :: b1 :: b2 :: b3 :: aMk ::
        (L₂ ++ rest)) acc := by
  rw [processLines_junk tm desired base pre _ acc hpre,
    processLines_junk tm desired base pre _ acc hpre]
  rw [processLines_step_sel tm desired base mk tline _ acc t hmk ht hsel,
    processLines_step_sel tm desired base mk tline _ acc t hmk ht hsel]
  have hfp : fullParse tm base t
      (numMk :: cl :: boxMk :: b1 :: b2 :: b3 :: aMk :: (L₁ ++ rest)) =
      fullParse tm base t
      (numMk :: cl :: boxMk :: b1 :: b2 :: b3 :: aMk :: (L₂ ++ rest)) := by
    simp only [fullParse,
      show lineAt (numMk :: cl :: boxMk :: b1 :: b2 :: b3 :: aMk ::
        (L₁ ++ rest)) 1 = cl by simp [lineAt],
      show lineAt (numMk :: cl :: boxMk :: b1 :: b2 :: b3 :: aMk ::
        (L₂ ++ rest)) 1 = cl by simp [lineAt],
      show lineAt (numMk :: cl :: boxMk :: b1 :: b2 :: b3 :: aMk ::
        (L₁ ++ rest)) 3 = b1 by simp [lineAt],
      show lineAt (numMk :: cl :: boxMk :: b1 :: b2 :: b3 :: aMk ::
        (L₂ ++ rest)) 3 = b1 by simp [lineAt],
      show lineAt (numMk :: cl :: boxMk :: b1 :: b2 :: b3 :: aMk ::
        (L₁ ++ rest)) 4 = b2 by simp [lineAt],
      show lineAt (numMk :: cl :: boxMk :: b1 :: b2 :: b3 :: aMk ::
        (L₂ ++ rest)) 4 = b2 by simp [lineAt],
      show lineAt (numMk :: cl :: boxMk :: b1 :: b2 :: b3 :: aMk ::
        (L₁ ++ rest)) 5 = b3 by simp [lineAt],
      show lineAt (numMk :: cl :: boxMk :: b1 :: b2 :: b3 :: aMk ::
        (L₂ ++ rest)) 5 = b3 by simp [lineAt],
      hn,
      show (numMk :: cl :: boxMk :: b1 :: b2 :: b3 :: aMk ::
        (L₁ ++ rest)).drop 7 = L₁ ++ rest from rfl,
      show (numMk :: cl :: boxMk :: b1 :: b2 :: b3 :: aMk ::
        (L₂ ++ rest)).drop 7 = L₂ ++ rest from rfl,
      readAtomsCore_agree tm n.toNat L₁ L₂ rest [] 0 hl1 hl2 hagree]
  rw [hfp]
  cases hv : fullParse tm base t
      (numMk :: cl :: boxMk :: b1 :: b2 :: b3 :: aMk :: (L₂ ++ rest)) with
  | error e => rfl
  | ok p =>
    obtain ⟨block, used⟩ := p
    obtain ⟨n', lx, ly, lz, atoms, hn', -, -, hused, -, -⟩ :=
      fullParse_spec tm base t _ block used hv
    rw [show lineAt (numMk :: cl :: boxMk :: b1 :: b2 :: b3 :: aMk ::
      (L₂ ++ rest)) 1 = cl by simp [lineAt]] at hn'
    rw [hn] at hn'
    have hnn : n' = n := (Option.some.inj hn').symm
    rw [hnn] at hused
    subst hused
    show processLines tm desired base
        ((numMk :: cl :: boxMk :: b1 :: b2 :: b3 :: aMk ::
          (L₁ ++ rest)).drop (7 + n.toNat)) (acc ++ [block]) =
      processLines tm desired base
        ((numMk :: cl :: boxMk :: b1 :: b2 :: b3 :: aMk ::
          (L₂ ++ rest)).drop (7 + n.toNat)) (acc ++ [block])
    have d1 : (numMk :: cl :: boxMk :: b1 :: b2 :: b3 :: aMk ::
        (L₁ ++ rest)).drop (7 + n.toNat) = rest := by
      rw [show (7 : Nat) + n.toNat = n.toNat + 7 by omega]
      show (L₁ ++ rest).drop n.toNat = rest
      rw [← hl1, List.drop_left]
    have d2 : (numMk :: cl :: boxMk :: b1 :: b2 :: b3 :: aMk ::
        (L₂ ++ rest)).drop (7 + n.toNat) = rest := by
      rw [show (7 : Nat) + n.toNat = n.toNat + 7 by omega]
      show (L₂ ++ rest).drop n.toNat = rest
      rw [← hl2, List.drop_left]
    rw [d1, d2]

/-- Witness for C10: two one-atom streams whose atom lines differ only
in the id field and the three velocity fields process to identical
results. -/
theorem c10_unused_fields_noninterference_witness :
    processLines ATOM_TYPE_MAP DESIRED ("run") niInputA [] =
      processLines ATOM_TYPE_MAP DESIRED ("run") niInputB [] := by
  have h := c10_unused_fields_noninterference ATOM_TYPE_MAP DESIRED ("run") []
    ("ITEM: TIMESTEP") ("0") ("ITEM: NUMBER OF ATOMS") ("1")
    ("ITEM: BOX BOUNDS pp pp pp") ("0 1") ("0 1") ("0 1")
    ("ITEM: ATOMS id type x y z vx vy vz fx fy fz c_pe")
    0 1
    [("1 1 0.5 0.5 0.5 0.0 0.0 0.0 0.1 0.1 0.1 1.0")]
    [("9 1 0.5 0.5 0.5 7.0 8.0 9.0 0.1 0.1 0.1 1.0")]
    [] []
    (by decide) (by decide) (by with_unfolding_all rfl)
    (by with_unfolding_all rfl) (by with_unfolding_all rfl)
    (by decide) (by decide) (by with_unfolding_all rfl)
  exact h
